import Mathlib

/-!
Verification of the YouTube scheduler pipeline
(`src/YouTubeScheduler_ChatGPT_Version.py`).

The development shallowly embeds the logical core of the script:

* the schedule calculator `get_next_sunday_920am_cst`,
* the broadcast inspector (`get_last_broadcast`, `get_upcoming_broadcast`),
* the title construction of the reconciler,
* the thumbnail copier `set_thumbnail`, and
* the main reconciliation flow (update-vs-insert decision, stream binding,
  exit codes).

Wall-clock datetimes are modelled as a day index plus microseconds since
local midnight; the day index counts days from an epoch Monday, so that
`day % 7` coincides with the value of the Python method weekday()
(Monday = 0, ..., Sunday = 6).  The fixed utc offset that pytz attaches to
the current datetime is carried as an explicit parameter: the script never
re-localises after arithmetic, so the same offset governs the whole
computation.
-/

namespace YTSched

/-- Local wall-clock datetime: `day` counts days from an epoch Monday and
`usec` is the time of day in microseconds since local midnight. -/
structure LocalDateTime where
  day : Int
  usec : Int
deriving DecidableEq

/-- The time zone information pytz attaches to the current datetime: a fixed
utc offset, in microseconds. -/
structure TZInfo where
  utcoffsetUsec : Int
deriving DecidableEq

/-- Microseconds in one day. -/
def usecPerDay : Int := 86400000000

/-- 09:20:00.000 local time, in microseconds since midnight. -/
def nineTwentyUsec : Int := 33600000000

/-- Conversion of a local wall-clock datetime to an absolute utc instant in
microseconds, using the attached fixed offset (the model of
astimezone(pytz.utc)). -/
def localToUtcUsec (tz : TZInfo) (t : LocalDateTime) : Int :=
  t.day * usecPerDay + t.usec - tz.utcoffsetUsec

/-- Embedding of get_next_sunday_920am_cst (lines 103-112).  The weekday of
`now` is `now.day % 7` as in Python; days_ahead = 6 - weekday, forced up by 7
when it is ≤ 0; the scheduled local time replaces the time of day by
09:20:00.000; the first component is the utc equivalent of the local one. -/
def get_next_sunday_920am_cst (tz : TZInfo) (now : LocalDateTime) :
    Int × LocalDateTime :=
  let days_ahead : Int := 6 - now.day % 7
  let days_ahead := if days_ahead ≤ 0 then days_ahead + 7 else days_ahead
  let next_sunday : LocalDateTime := { day := now.day + days_ahead, usec := now.usec }
  let scheduled_time_local : LocalDateTime := { next_sunday with usec := nineTwentyUsec }
  (localToUtcUsec tz scheduled_time_local, scheduled_time_local)

/-- Python str.strip(): drop whitespace characters from both ends. -/
def pyStrip (l : List Char) : List Char :=
  ((l.dropWhile Char.isWhitespace).reverse.dropWhile Char.isWhitespace).reverse

/-- Characters other than the '-' separator of split. -/
def notDash (c : Char) : Bool :=
  c != '-'

/-- The portion of a string before its first '-' character (the whole string
when there is none); this is split('-')[0] in Python. -/
def beforeFirstDash (s : String) : String :=
  String.mk (s.toList.takeWhile notDash)

/-- Embedding of line 165: base_title = title.split('-')[0].strip(). -/
def base_title (lastTitle : String) : String :=
  String.mk (pyStrip (beforeFirstDash lastTitle).toList)

/-- Embedding of line 166: the new broadcast title is the stripped base title
followed by " - " and the formatted scheduled date. -/
def mkTitle (lastTitle dateStr : String) : String :=
  base_title lastTitle ++ " - " ++ dateStr

/-- Left pad of a decimal numeral with zeros up to a given width. -/
def padZero (w : Nat) (n : Nat) : String :=
  let s := toString n
  String.mk (List.replicate (w - s.length) '0' ++ s.toList)

/-- strftime with format "%Y %m %d": zero padded year, month and day separated
by single spaces. -/
def formatYMD (y m d : Nat) : String :=
  padZero 4 y ++ " " ++ padZero 2 m ++ " " ++ padZero 2 d

/-- contentDetails of a listed broadcast; every field is read with .get in the
Python code, hence optional. -/
structure ContentDetails where
  enableAutoStart : Option Bool
  enableAutoStop : Option Bool
  boundStreamId : Option String
deriving DecidableEq

/-- snippet of a listed broadcast.  The thumbnail fields stand for the url
read out of thumbnails.get of each resolution, absent when the resolution or
its url key is missing; publishedAt and scheduledStartTime are accessed with
brackets in the code, hence mandatory. -/
structure Snippet where
  publishedAt : String
  scheduledStartTime : String
  title : Option String
  description : Option String
  thumbMaxresUrl : Option String
  thumbHighUrl : Option String
  thumbMediumUrl : Option String
  thumbDefaultUrl : Option String
deriving DecidableEq

/-- status of a listed broadcast; lifeCycleStatus is accessed with [],
privacyStatus with .get. -/
structure BStatus where
  lifeCycleStatus : String
  privacyStatus : Option String
deriving DecidableEq

/-- One item of a liveBroadcasts().list response. -/
structure Broadcast where
  id : String
  snippet : Snippet
  status : BStatus
  contentDetails : Option ContentDetails
deriving DecidableEq

/-- contentDetails default used when the contentDetails key is absent: the
empty dict, out of which every .get returns its default. -/
def emptyContentDetails : ContentDetails :=
  { enableAutoStart := none, enableAutoStop := none, boundStreamId := none }

/-- The settings record built by get_last_broadcast. -/
structure Settings where
  title : String
  description : String
  thumbnail : Option String
  privacy : String
  auto_start : Bool
  auto_stop : Bool
  streamId : Option String
deriving DecidableEq

/-- The fixed default settings record (lines 54-62 and 92-100). -/
def defaultSettings : Settings :=
  { title := "Bethel Livestream"
    description := "Join us live this Sunday at 9:20 AM CST!"
    thumbnail := none
    privacy := "public"
    auto_start := true
    auto_stop := true
    streamId := none }

/-- Python `a or b` on optional strings: None and the empty string are falsy. -/
def pyOr (a b : Option String) : Option String :=
  match a with
  | none => b
  | some s => if s = "" then b else some s

/-- The thumbnail url chain of lines 73-78: maxres or high or medium or
default, with Python or semantics. -/
def thumbnailUrlOf (b : Broadcast) : Option String :=
  pyOr b.snippet.thumbMaxresUrl
    (pyOr b.snippet.thumbHighUrl
      (pyOr b.snippet.thumbMediumUrl b.snippet.thumbDefaultUrl))

/-- The settings record derived from the selected last broadcast
(lines 80-88), with the per-field .get defaults. -/
def settingsOfLast (last : Broadcast) : Settings :=
  { title := last.snippet.title.getD ("Bethel Livestream")
    description := last.snippet.description.getD ("Join us live this Sunday at 9:20 AM CST!")
    thumbnail := thumbnailUrlOf last
    privacy := last.status.privacyStatus.getD ("public")
    auto_start := ((last.contentDetails.getD emptyContentDetails).enableAutoStart).getD true
    auto_stop := ((last.contentDetails.getD emptyContentDetails).enableAutoStop).getD true
    streamId := (last.contentDetails.getD emptyContentDetails).boundStreamId }

/-- Descending comparison by publish timestamp: the Bool relation under
sorted(key=publishedAt, reverse=True); a stable merge sort under this
relation produces exactly the stable descending order Python produces. -/
def descPublished (a b : Broadcast) : Bool :=
  decide (b.snippet.publishedAt ≤ a.snippet.publishedAt)

/-- Embedding of get_last_broadcast (lines 43-100).  The response is none when
the list call raises; the items are sorted by publish date descending and the
settings are derived from the first.  Matching the sorted list against [] is
the emptiness test of line 52: the sorted list is empty exactly when the item
list is. -/
def get_last_broadcast (resp : Option (List Broadcast)) : Settings :=
  match resp with
  | none => defaultSettings
  | some items =>
    match items.mergeSort descPublished with
    | [] => defaultSettings
    | last :: _ => settingsOfLast last

/-- A broadcast in the upcoming lifecycle state (the filter of line 127). -/
def isUpcomingB (b : Broadcast) : Bool :=
  b.status.lifeCycleStatus == "upcoming"

/-- Ascending comparison by scheduled start time (the sort key of line 130). -/
def ascScheduled (a b : Broadcast) : Bool :=
  decide (a.snippet.scheduledStartTime ≤ b.snippet.scheduledStartTime)

/-- Embedding of get_upcoming_broadcast (lines 117-134): filter to upcoming
broadcasts, return the earliest scheduled one, none on an empty filter result
or on a lookup failure. -/
def get_upcoming_broadcast (resp : Option (List Broadcast)) : Option Broadcast :=
  match resp with
  | none => none
  | some items =>
    match (items.filter isUpcomingB).mergeSort ascScheduled with
    | [] => none
    | b :: _ => some b

/-- Truthiness of an optional string under Python: None and "" are falsy
(the checks of lines 138 and 220). -/
def pyTruthy : Option String → Bool
  | none => false
  | some s => if s = "" then false else true

/-- Externally observable outcome of set_thumbnail: whether the temporary
file was created, whether a temporary file is left behind after the finally
block, and whether the upload succeeded.  The function catches every
exception, so it has no raising outcome. -/
structure ThumbResult where
  tempCreated : Bool
  tempResidual : Bool
  uploaded : Bool
deriving DecidableEq

/-- Embedding of set_thumbnail (lines 137-158).  A falsy url returns at once.
Otherwise the image is fetched; a fetch failure (connection error or the
raise_for_status on a non-2xx status) is raised before the temporary file is
created, caught by the except branch, and the finally block sees
tmp_file_path = None.  On a successful fetch the temporary file is written,
the upload is attempted (its failure is caught), and the finally block
removes the file on every one of these paths. -/
def set_thumbnail (thumbnailUrl : Option String) (fetchOk uploadOk : Bool) :
    ThumbResult :=
  if pyTruthy thumbnailUrl = false then
    { tempCreated := false, tempResidual := false, uploaded := false }
  else if fetchOk = false then
    { tempCreated := false, tempResidual := false, uploaded := false }
  else
    { tempCreated := true, tempResidual := false, uploaded := uploadOk }

/-- The body sent to liveBroadcasts().update or insert (lines 171-183 and
193-204): snippet title, description and scheduled start time, privacy
status, and the auto-start and auto-stop flags. -/
structure RequestBody where
  title : String
  description : String
  scheduledStartTime : String
  privacyStatus : String
  enableAutoStart : Bool
  enableAutoStop : Bool
deriving DecidableEq

/-- The request body built by the main flow from the reused settings, the
constructed title and the iso-formatted utc scheduled start time. -/
def requestBodyOf (last : Settings) (title sst : String) : RequestBody :=
  { title := title
    description := last.description
    scheduledStartTime := sst
    privacyStatus := last.privacy
    enableAutoStart := last.auto_start
    enableAutoStop := last.auto_stop }

/-- One mutating API call issued by the main flow. -/
inductive ApiCall where
  | update (id : String) (body : RequestBody)
  | insert (body : RequestBody)
  | bind (videoId : String) (streamId : String)
deriving DecidableEq

/-- Recogniser for update calls. -/
def isUpdateCall : ApiCall → Bool
  | .update _ _ => true
  | _ => false

/-- Recogniser for insert calls. -/
def isInsertCall : ApiCall → Bool
  | .insert _ => true
  | _ => false

/-- Recogniser for bind calls. -/
def isBindCall : ApiCall → Bool
  | .bind _ _ => true
  | _ => false

/-- Environment of one run: the two list responses (none models a raised
lookup) and the success of each later call.  insertedId is the id the
service assigns on a successful insert. -/
structure Env where
  lastResp : Option (List Broadcast)
  upcomingResp : Option (List Broadcast)
  updateOk : Bool
  insertOk : Bool
  insertedId : String
  bindOk : Bool
  fetchOk : Bool
  uploadOk : Bool

/-- Observable result of one run of the script: the mutating calls made, the
process exit code, the broadcast id in use after the reconciliation step
(none when the process aborted), and the thumbnail outcome. -/
structure RunResult where
  calls : List ApiCall
  exitCode : Nat
  videoId : Option String
  thumb : Option ThumbResult

/-- The steps after a broadcast id is known (lines 220-233): bind the reused
stream when the settings carry a truthy stream id (the failure of the bind
call is caught), then set the thumbnail; the process then exits 0. -/
def finishRun (env : Env) (last_broadcast : Settings) (calls : List ApiCall)
    (video_id : String) : RunResult :=
  let calls :=
    match last_broadcast.streamId with
    | none => calls
    | some sid => if sid = "" then calls else calls ++ [ApiCall.bind video_id sid]
  { calls := calls
    exitCode := 0
    videoId := some video_id
    thumb := some (set_thumbnail last_broadcast.thumbnail env.fetchOk env.uploadOk) }

/-- The title built by the main flow (lines 164-166); strftimeYMD stands for
strftime of the computed local scheduled time with format "%Y %m %d". -/
def mainTitle (env : Env) (tz : TZInfo) (now : LocalDateTime)
    (strftimeYMD : LocalDateTime → String) : String :=
  mkTitle (get_last_broadcast env.lastResp).title
    (strftimeYMD (get_next_sunday_920am_cst tz now).2)

/-- The request body built by the main flow; isoUTC stands for the
isoformat() serialisation of the utc instant. -/
def mainRequestBody (env : Env) (tz : TZInfo) (now : LocalDateTime)
    (strftimeYMD : LocalDateTime → String) (isoUTC : Int → String) : RequestBody :=
  requestBodyOf (get_last_broadcast env.lastResp)
    (mainTitle env tz now strftimeYMD)
    (isoUTC (get_next_sunday_920am_cst tz now).1)

/-- Embedding of the main flow (lines 161-235).  When an upcoming broadcast
exists it is updated under its own id; an update failure is only logged and
the run continues with that id.  Otherwise one insert is attempted; on
failure the process exits 1 before the bind and thumbnail steps, on success
the run continues with the id the service assigned. -/
def mainRun (env : Env) (tz : TZInfo) (now : LocalDateTime)
    (strftimeYMD : LocalDateTime → String) (isoUTC : Int → String) : RunResult :=
  let last_broadcast := get_last_broadcast env.lastResp
  let body := mainRequestBody env tz now strftimeYMD isoUTC
  match get_upcoming_broadcast env.upcomingResp with
  | some b => finishRun env last_broadcast [ApiCall.update b.id body] b.id
  | none =>
    if env.insertOk then
      finishRun env last_broadcast [ApiCall.insert body] env.insertedId
    else
      { calls := [ApiCall.insert body], exitCode := 1, videoId := none, thumb := none }

/-- Modelled from the spec: the backing store is the list of the channel
broadcasts, most recent first, and a list call returns at most the
maxResults = 10 first of them.  The store itself is external to the
repository (the YouTube service). -/
def listBroadcasts (store : List Broadcast) : List Broadcast :=
  store.take 10

/-- Modelled from the spec: the store effect of a successful insert.  The
service assigns the given fresh id and the created broadcast is in the
upcoming lifecycle state (the spec relies on this: a re-run after an insert
finds the created broadcast as upcoming). -/
def insertedBroadcast (newId publishedAt : String) (body : RequestBody) : Broadcast :=
  { id := newId
    snippet :=
      { publishedAt := publishedAt
        scheduledStartTime := body.scheduledStartTime
        title := some body.title
        description := some body.description
        thumbMaxresUrl := none
        thumbHighUrl := none
        thumbMediumUrl := none
        thumbDefaultUrl := none }
    status := { lifeCycleStatus := "upcoming", privacyStatus := some body.privacyStatus }
    contentDetails := some
      { enableAutoStart := some body.enableAutoStart
        enableAutoStop := some body.enableAutoStop
        boundStreamId := none } }

/-- Modelled from the spec: the store effect of a successful update of one
broadcast: title, description, scheduled start time, privacy status and the
auto flags are overwritten; the id and the lifecycle state are untouched. -/
def updatedBroadcast (b : Broadcast) (body : RequestBody) : Broadcast :=
  { b with
    snippet :=
      { b.snippet with
        title := some body.title
        description := some body.description
        scheduledStartTime := body.scheduledStartTime }
    status := { b.status with privacyStatus := some body.privacyStatus }
    contentDetails := some
      { (b.contentDetails.getD emptyContentDetails) with
        enableAutoStart := some body.enableAutoStart
        enableAutoStop := some body.enableAutoStop } }

/-- The request body one pipeline run sends, built from the settings listed
out of the store, the constructed title and the computed schedule. -/
def pipelineBody (tz : TZInfo) (now : LocalDateTime)
    (strftimeYMD : LocalDateTime → String) (isoUTC : Int → String)
    (store : List Broadcast) : RequestBody :=
  requestBodyOf (get_last_broadcast (some (listBroadcasts store)))
    (mkTitle (get_last_broadcast (some (listBroadcasts store))).title
      (strftimeYMD (get_next_sunday_920am_cst tz now).2))
    (isoUTC (get_next_sunday_920am_cst tz now).1)

/-- Modelled from the spec: one full run of the pipeline against a backing
store with every API call succeeding, returning the new store.  The decision
logic is that of the main flow (lines 161-217). -/
def runPipeline (tz : TZInfo) (now : LocalDateTime)
    (strftimeYMD : LocalDateTime → String) (isoUTC : Int → String)
    (newId publishedAt : String) (store : List Broadcast) : List Broadcast :=
  match get_upcoming_broadcast (some (listBroadcasts store)) with
  | some b => store.map (fun x =>
      if x.id = b.id
      then updatedBroadcast x (pipelineBody tz now strftimeYMD isoUTC store)
      else x)
  | none =>
    insertedBroadcast newId publishedAt (pipelineBody tz now strftimeYMD isoUTC store)
      :: store

/-- Number of broadcasts of a store in the upcoming lifecycle state. -/
def countUpcoming (store : List Broadcast) : Nat :=
  (store.filter isUpcomingB).length

/-- Defined following the words of the spec: the first non-empty url among a
preference ordered list of optional urls. -/
def firstNonEmpty : List (Option String) → Option String
  | [] => none
  | none :: rest => firstNonEmpty rest
  | some s :: rest => if s = "" then firstNonEmpty rest else some s

/-- Sample upcoming broadcast used in concrete instantiations. -/
def sampleUpcoming : Broadcast :=
  { id := "vid-upc"
    snippet :=
      { publishedAt := "2024-01-01T00:00:00Z"
        scheduledStartTime := "2024-01-07T15:20:00Z"
        title := some "Service - 2024 01 07"
        description := some "service description"
        thumbMaxresUrl := none
        thumbHighUrl := some "img-high"
        thumbMediumUrl := none
        thumbDefaultUrl := none }
    status := { lifeCycleStatus := "upcoming", privacyStatus := some "public" }
    contentDetails := some
      { enableAutoStart := some true
        enableAutoStop := some true
        boundStreamId := some "stream-1" } }

/-- Sample broadcast with every optional field missing, in a non upcoming
lifecycle state. -/
def sampleBare : Broadcast :=
  { id := "vid-bare"
    snippet :=
      { publishedAt := "2023-12-25T00:00:00Z"
        scheduledStartTime := "2023-12-31T15:20:00Z"
        title := none
        description := none
        thumbMaxresUrl := none
        thumbHighUrl := none
        thumbMediumUrl := none
        thumbDefaultUrl := none }
    status := { lifeCycleStatus := "complete", privacyStatus := none }
    contentDetails := none }

/-- Sample environment whose upcoming lookup finds sampleUpcoming and whose
update call fails. -/
def sampleEnvUpd : Env :=
  { lastResp := some [sampleUpcoming]
    upcomingResp := some [sampleUpcoming]
    updateOk := false
    insertOk := true
    insertedId := "new-vid"
    bindOk := true
    fetchOk := true
    uploadOk := true }

/-- Sample environment whose lookups fail and whose insert fails. -/
def sampleEnvIns : Env :=
  { lastResp := none
    upcomingResp := none
    updateOk := true
    insertOk := false
    insertedId := "new-vid"
    bindOk := false
    fetchOk := false
    uploadOk := false }

/-- Sample fixed zone offset: UTC-6 in microseconds. -/
def sampleTZ : TZInfo := { utcoffsetUsec := -21600000000 }

/-- Sample current local time: a Thursday at 00:00. -/
def sampleNow : LocalDateTime := { day := 3, usec := 0 }

/-- Sample strftime stub used in concrete instantiations. -/
def sampleFmt : LocalDateTime → String := fun _ => "2024 01 14"

/-- Sample isoformat stub used in concrete instantiations. -/
def sampleIso : Int → String := fun _ => "2024-01-14T15:20:00+00:00"

/-- dropWhile is idempotent. -/
theorem dropWhile_dropWhile_self {α : Type} (p : α → Bool) (l : List α) :
    (l.dropWhile p).dropWhile p = l.dropWhile p := by
  induction l with
  | nil => rfl
  | cons a l ih =>
    by_cases h : p a
    · simp [List.dropWhile_cons_of_pos h, ih]
    · simp [List.dropWhile_cons_of_neg h]

/-- takeWhile runs past a block whose elements all satisfy the predicate. -/
theorem takeWhile_append_all {α : Type} {p : α → Bool} (l r : List α)
    (h : ∀ c ∈ l, p c = true) :
    (l ++ r).takeWhile p = l ++ r.takeWhile p := by
  induction l with
  | nil => simp
  | cons a l ih =>
    have ha : p a := h a (by simp)
    simp only [List.cons_append, List.takeWhile_cons_of_pos ha]
    rw [ih (fun c hc => h c (by simp [hc]))]

/-- Membership transfer out of pyStrip. -/
theorem mem_pyStrip {c : Char} {l : List Char} (h : c ∈ pyStrip l) : c ∈ l := by
  unfold pyStrip at h
  rw [List.mem_reverse] at h
  have h2 := List.dropWhile_subset (l := (l.dropWhile Char.isWhitespace).reverse)
    Char.isWhitespace h
  rw [List.mem_reverse] at h2
  exact List.dropWhile_subset Char.isWhitespace h2

/-- The first character of a stripped list is not whitespace. -/
theorem pyStrip_head_not_ws (m : List Char) (c : Char)
    (hc : (pyStrip m).head? = some c) : Char.isWhitespace c = false := by
  unfold pyStrip at hc
  rw [List.head?_reverse] at hc
  rcases hA : m.dropWhile Char.isWhitespace with _ | ⟨a, A2⟩
  · rw [hA] at hc
    simp at hc
  · have ha : Char.isWhitespace a = false := by
      have h := List.head?_dropWhile_not Char.isWhitespace m
      rw [hA] at h
      simpa using h
    rw [hA] at hc
    obtain ⟨t, ht⟩ := List.dropWhile_suffix (l := (a :: A2).reverse) Char.isWhitespace
    have hY : ((a :: A2).reverse.dropWhile Char.isWhitespace).getLast? = some c := hc
    have hW : (t ++ (a :: A2).reverse.dropWhile Char.isWhitespace).getLast? = some c := by
      rw [List.getLast?_append, hY]
      rfl
    rw [ht] at hW
    have hWa : ((a :: A2).reverse).getLast? = some a := by
      have : (a :: A2).reverse = A2.reverse ++ [a] := by simp
      rw [this, List.getLast?_concat]
    rw [hWa] at hW
    cases hW
    exact ha

/-- Stripping after appending one trailing space undoes nothing: the result
is the stripped list again. -/
theorem pyStrip_append_space (m : List Char) :
    pyStrip (pyStrip m ++ [' ']) = pyStrip m := by
  rcases hz : pyStrip m with _ | ⟨c, z⟩
  · decide
  · have hws : Char.isWhitespace c = false := pyStrip_head_not_ws m c (by rw [hz]; rfl)
    show ((((c :: z) ++ [' ']).dropWhile Char.isWhitespace).reverse.dropWhile
      Char.isWhitespace).reverse = c :: z
    have h1 : ((c :: z) ++ [' ']).dropWhile Char.isWhitespace = (c :: z) ++ [' '] := by
      rw [List.cons_append]
      exact List.dropWhile_cons_of_neg (by simp [hws])
    rw [h1]
    have h2 : ((c :: z) ++ [' ']).reverse = ' ' :: (c :: z).reverse := by simp
    rw [h2, List.dropWhile_cons_of_pos (by decide)]
    have h3 : ((c :: z).reverse.dropWhile Char.isWhitespace) = (c :: z).reverse := by
      rw [← hz]
      show ((pyStrip m).reverse.dropWhile Char.isWhitespace) = (pyStrip m).reverse
      unfold pyStrip
      rw [List.reverse_reverse]
      exact dropWhile_dropWhile_self _ _
    rw [h3, List.reverse_reverse]

/-- Every character of a base title satisfies notDash. -/
theorem base_title_notDash (t : String) :
    ∀ c ∈ (base_title t).toList, notDash c = true := by
  intro c hc
  unfold base_title at hc
  have h1 : c ∈ pyStrip (beforeFirstDash t).toList := hc
  have h2 := mem_pyStrip h1
  unfold beforeFirstDash at h2
  exact List.mem_takeWhile_imp h2

/-- Rebuilding a title from an already built title replaces the date
fragment: the base of a built title is the base of the original title. -/
theorem base_title_mkTitle (t d : String) :
    base_title (mkTitle t d) = base_title t := by
  have hdata : (mkTitle t d).toList
      = (base_title t).toList ++ ' ' :: '-' :: ' ' :: d.toList := by
    show (base_title t ++ " - " ++ d).data = _
    rw [String.data_append, String.data_append, List.append_assoc]
    rfl
  unfold base_title beforeFirstDash
  rw [hdata]
  rw [takeWhile_append_all _ _ (base_title_notDash t)]
  have hstop : (' ' :: '-' :: ' ' :: d.toList).takeWhile notDash = [' '] := by
    rw [List.takeWhile_cons_of_pos (by decide), List.takeWhile_cons_of_neg (by decide)]
  rw [hstop]
  show String.mk (pyStrip (pyStrip (beforeFirstDash t).toList ++ [' '])) = _
  rw [pyStrip_append_space]
  rfl

/-- Title rebuilding is date replacement: building from a built title equals
building from the original title. -/
theorem mkTitle_mkTitle (t d d' : String) :
    mkTitle (mkTitle t d) d' = mkTitle t d' := by
  show base_title (mkTitle t d) ++ " - " ++ d' = base_title t ++ " - " ++ d'
  rw [base_title_mkTitle]

/-- C1: for every current local time in the America/Chicago zone,
get_next_sunday_920am_cst returns an instant at 09:20:00.000 local time on a
Sunday strictly 1 to 7 days ahead: exactly 7 days later when today is Sunday
(never today, even before 09:20), 1 to 6 days ahead otherwise; the first
returned value is the utc equivalent of that local instant. -/
theorem claim_C1_next_sunday (tz : TZInfo) (now : LocalDateTime) :
    (get_next_sunday_920am_cst tz now).2.usec = nineTwentyUsec ∧
    (get_next_sunday_920am_cst tz now).2.day % 7 = 6 ∧
    1 ≤ (get_next_sunday_920am_cst tz now).2.day - now.day ∧
    (get_next_sunday_920am_cst tz now).2.day - now.day ≤ 7 ∧
    (now.day % 7 = 6 → (get_next_sunday_920am_cst tz now).2.day - now.day = 7) ∧
    (¬ now.day % 7 = 6 → (get_next_sunday_920am_cst tz now).2.day - now.day ≤ 6) ∧
    (get_next_sunday_920am_cst tz now).1
      = localToUtcUsec tz (get_next_sunday_920am_cst tz now).2 := by
  have h0 : (0 : Int) ≤ now.day % 7 := Int.emod_nonneg _ (by decide)
  have h7 : now.day % 7 < 7 := Int.emod_lt_of_pos _ (by decide)
  by_cases hif : (6 - now.day % 7 : Int) ≤ 0
  · simp only [get_next_sunday_920am_cst, localToUtcUsec, nineTwentyUsec, usecPerDay,
      if_pos hif, true_and, and_true]
    omega
  · simp only [get_next_sunday_920am_cst, localToUtcUsec, nineTwentyUsec, usecPerDay,
      if_neg hif, true_and, and_true]
    omega

/-- Witness for C1 at a concrete Sunday instant. -/
theorem claim_C1_next_sunday_witness :
    ({ day := 6, usec := 5 } : LocalDateTime).day % 7 = 6 ∧
    (get_next_sunday_920am_cst ⟨0⟩ { day := 6, usec := 5 }).2.day
      - ({ day := 6, usec := 5 } : LocalDateTime).day = 7 := by
  refine ⟨by decide, ?_⟩
  exact (claim_C1_next_sunday ⟨0⟩ { day := 6, usec := 5 }).2.2.2.2.1 (by decide)

/-- C5: the new broadcast title keeps the portion of the last title before
its first '-' character, trimmed, and appends " - " plus the YYYY MM DD
formatted new local date; the given concrete instance holds, and re-applying
the construction replaces the date fragment instead of appending, so the
title carries at most one date suffix across repeated runs. -/
theorem claim_C5_title :
    mkTitle ("Service - 2024 01 07") (formatYMD 2024 1 14) = "Service - 2024 01 14" ∧
    formatYMD 2024 1 14 = "2024 01 14" ∧
    ∀ t d d' : String, mkTitle (mkTitle t d) d' = mkTitle t d' := by
  refine ⟨by decide, by decide, ?_⟩
  intro t d d'
  exact mkTitle_mkTitle t d d'

/-- C6: on a raised lookup and on an empty result set, get_last_broadcast
returns the fixed default settings record with the seven documented field
values, without raising. -/
theorem claim_C6_defaults :
    get_last_broadcast none = defaultSettings ∧
    get_last_broadcast (some []) = defaultSettings ∧
    defaultSettings =
      { title := "Bethel Livestream"
        description := "Join us live this Sunday at 9:20 AM CST!"
        thumbnail := none
        privacy := "public"
        auto_start := true
        auto_stop := true
        streamId := none } := by
  refine ⟨rfl, ?_, rfl⟩
  simp [get_last_broadcast]

/-- The head of a merge sorted list is in the original list and relates to
all its elements, for a transitive and total Bool relation. -/
theorem mergeSort_head_least {α : Type} (le : α → α → Bool)
    (htrans : ∀ a b c, le a b → le b c → le a c)
    (htotal : ∀ a b, le a b || le b a)
    (l : List α) (x : α) (xs : List α) (hx : l.mergeSort le = x :: xs) :
    x ∈ l ∧ ∀ b ∈ l, le x b := by
  have hmem : x ∈ l := List.mem_mergeSort.mp (by rw [hx]; exact List.mem_cons_self x xs)
  refine ⟨hmem, ?_⟩
  intro b hb
  have hpw := List.sorted_mergeSort htrans htotal l
  rw [hx] at hpw
  have hbmem : b ∈ x :: xs := by rw [← hx]; exact List.mem_mergeSort.mpr hb
  rcases List.mem_cons.mp hbmem with rfl | hbb
  · simpa using htotal b b
  · exact (List.pairwise_cons.mp hpw).1 b hbb

/-- ascScheduled is transitive. -/
theorem ascScheduled_trans : ∀ a b c : Broadcast,
    ascScheduled a b → ascScheduled b c → ascScheduled a c := by
  intro a b c hab hbc
  simp only [ascScheduled, decide_eq_true_eq] at hab hbc ⊢
  exact le_trans hab hbc

/-- ascScheduled is total. -/
theorem ascScheduled_total : ∀ a b : Broadcast,
    ascScheduled a b || ascScheduled b a := by
  intro a b
  simp only [ascScheduled, Bool.or_eq_true, decide_eq_true_eq]
  exact le_total _ _

/-- descPublished is transitive. -/
theorem descPublished_trans : ∀ a b c : Broadcast,
    descPublished a b → descPublished b c → descPublished a c := by
  intro a b c hab hbc
  simp only [descPublished, decide_eq_true_eq] at hab hbc ⊢
  exact le_trans hbc hab

/-- descPublished is total. -/
theorem descPublished_total : ∀ a b : Broadcast,
    descPublished a b || descPublished b a := by
  intro a b
  simp only [descPublished, Bool.or_eq_true, decide_eq_true_eq]
  exact le_total _ _

/-- On a nonempty response, get_last_broadcast derives the settings from an
item of the response with maximal publish timestamp. -/
theorem get_last_broadcast_some (items : List Broadcast) (h : items ≠ []) :
    ∃ b, b ∈ items ∧ (∀ c ∈ items, c.snippet.publishedAt ≤ b.snippet.publishedAt) ∧
      get_last_broadcast (some items) = settingsOfLast b := by
  rcases hms : items.mergeSort descPublished with _ | ⟨x, xs⟩
  · exfalso
    have hlen : (items.mergeSort descPublished).length = items.length :=
      List.length_mergeSort items
    rw [hms] at hlen
    exact h (List.length_eq_zero.mp hlen.symm)
  · obtain ⟨hmem, hall⟩ :=
      mergeSort_head_least descPublished descPublished_trans descPublished_total
        items x xs hms
    refine ⟨x, hmem, ?_, ?_⟩
    · intro c hc
      have := hall c hc
      simpa only [descPublished, decide_eq_true_eq] using this
    · simp only [get_last_broadcast]
      rw [hms]

/-- The Python or chain over four optional strings returns the first
non-empty one whenever it exists. -/
theorem pyOr_firstNonEmpty (o1 o2 o3 o4 : Option String) (u : String)
    (hu : firstNonEmpty [o1, o2, o3, o4] = some u) :
    pyOr o1 (pyOr o2 (pyOr o3 o4)) = some u := by
  rcases o1 with _ | s1 <;> rcases o2 with _ | s2 <;> rcases o3 with _ | s3 <;>
    rcases o4 with _ | s4 <;>
    simp only [firstNonEmpty, pyOr] at hu ⊢ <;>
    first
    | (split_ifs at hu ⊢ <;> simp_all)
    | simp_all

/-- The thumbnail url of the selected broadcast is the first non-empty url
in the preference order whenever one exists. -/
theorem thumbnail_firstNonEmpty (b : Broadcast) (u : String)
    (hu : firstNonEmpty [b.snippet.thumbMaxresUrl, b.snippet.thumbHighUrl,
      b.snippet.thumbMediumUrl, b.snippet.thumbDefaultUrl] = some u) :
    (settingsOfLast b).thumbnail = some u := by
  show pyOr b.snippet.thumbMaxresUrl (pyOr b.snippet.thumbHighUrl
    (pyOr b.snippet.thumbMediumUrl b.snippet.thumbDefaultUrl)) = some u
  exact pyOr_firstNonEmpty _ _ _ _ u hu

/-- C7: get_upcoming_broadcast filters the listed broadcasts to those in the
upcoming lifecycle state and returns one with the earliest scheduled start
time; it returns none both on an empty filter result and on a lookup
failure, treating the two cases identically, and never raises. -/
theorem claim_C7_upcoming :
    get_upcoming_broadcast none = none ∧
    (∀ items : List Broadcast,
      (items.filter isUpcomingB = [] → get_upcoming_broadcast (some items) = none) ∧
      (get_upcoming_broadcast (some items) = none → items.filter isUpcomingB = []) ∧
      (∀ b, get_upcoming_broadcast (some items) = some b →
        b ∈ items ∧ isUpcomingB b = true ∧
        ∀ c ∈ items, isUpcomingB c = true →
          b.snippet.scheduledStartTime ≤ c.snippet.scheduledStartTime)) := by
  refine ⟨rfl, ?_⟩
  intro items
  refine ⟨?_, ?_, ?_⟩
  · intro hf
    simp only [get_upcoming_broadcast]
    rw [hf, List.mergeSort_nil]
  · intro hn
    rcases hms : (items.filter isUpcomingB).mergeSort ascScheduled with _ | ⟨x, xs⟩
    · have hlen : ((items.filter isUpcomingB).mergeSort ascScheduled).length
          = (items.filter isUpcomingB).length := List.length_mergeSort _
      rw [hms] at hlen
      exact List.length_eq_zero.mp hlen.symm
    · exfalso
      simp only [get_upcoming_broadcast] at hn
      rw [hms] at hn
      simp at hn
  · intro b hb
    rcases hms : (items.filter isUpcomingB).mergeSort ascScheduled with _ | ⟨x, xs⟩
    · exfalso
      simp only [get_upcoming_broadcast] at hb
      rw [hms] at hb
      simp at hb
    · simp only [get_upcoming_broadcast] at hb
      rw [hms] at hb
      have hxb : x = b := by simpa using hb
      subst hxb
      obtain ⟨hmem, hall⟩ :=
        mergeSort_head_least ascScheduled ascScheduled_trans ascScheduled_total
          _ x xs hms
      have hmem2 := List.mem_filter.mp hmem
      refine ⟨hmem2.1, hmem2.2, ?_⟩
      intro c hc hcup
      have hcf : c ∈ items.filter isUpcomingB := List.mem_filter.mpr ⟨hc, hcup⟩
      have := hall c hcf
      simpa only [ascScheduled, decide_eq_true_eq] using this

/-- Witness for C7 on a concrete singleton response. -/
theorem claim_C7_upcoming_witness :
    get_upcoming_broadcast (some [sampleUpcoming]) = some sampleUpcoming ∧
    sampleUpcoming ∈ [sampleUpcoming] ∧ isUpcomingB sampleUpcoming = true := by
  have hb : get_upcoming_broadcast (some [sampleUpcoming]) = some sampleUpcoming := by
    unfold get_upcoming_broadcast
    simp [isUpcomingB, sampleUpcoming]
  have h3 := (claim_C7_upcoming.2 [sampleUpcoming]).2.2 sampleUpcoming hb
  exact ⟨hb, h3.1, h3.2.1⟩

/-- C8: when the broadcast list is non-empty, get_last_broadcast derives its
settings from an item with the latest publish timestamp, and the returned
thumbnail url is the first non-empty url in the order maxres, high, medium,
default. -/
theorem claim_C8_last_selection (items : List Broadcast) (h : items ≠ []) :
    ∃ b, b ∈ items ∧
      (∀ c ∈ items, c.snippet.publishedAt ≤ b.snippet.publishedAt) ∧
      get_last_broadcast (some items) = settingsOfLast b ∧
      (∀ u, firstNonEmpty [b.snippet.thumbMaxresUrl, b.snippet.thumbHighUrl,
          b.snippet.thumbMediumUrl, b.snippet.thumbDefaultUrl] = some u →
        (settingsOfLast b).thumbnail = some u) := by
  obtain ⟨b, hmem, hmax, heq⟩ := get_last_broadcast_some items h
  exact ⟨b, hmem, hmax, heq, fun u hu => thumbnail_firstNonEmpty b u hu⟩

/-- Witness for C8 on a concrete singleton response. -/
theorem claim_C8_last_selection_witness :
    ([sampleUpcoming] : List Broadcast) ≠ [] ∧
    ∃ b, b ∈ [sampleUpcoming] ∧
      (∀ c ∈ [sampleUpcoming], c.snippet.publishedAt ≤ b.snippet.publishedAt) ∧
      get_last_broadcast (some [sampleUpcoming]) = settingsOfLast b ∧
      (∀ u, firstNonEmpty [b.snippet.thumbMaxresUrl, b.snippet.thumbHighUrl,
          b.snippet.thumbMediumUrl, b.snippet.thumbDefaultUrl] = some u →
        (settingsOfLast b).thumbnail = some u) :=
  ⟨by simp, claim_C8_last_selection [sampleUpcoming] (by simp)⟩

/-- C10: even when a most recent prior broadcast is found, each missing field
is defaulted individually: missing title, description, privacyStatus,
enableAutoStart, enableAutoStop and boundStreamId yield the documented
defaults, so the returned settings record always has all seven fields
populated. -/
theorem claim_C10_field_defaults (items : List Broadcast) (h : items ≠ []) :
    ∃ b, b ∈ items ∧ get_last_broadcast (some items) = settingsOfLast b ∧
      (b.snippet.title = none → (settingsOfLast b).title = "Bethel Livestream") ∧
      (b.snippet.description = none →
        (settingsOfLast b).description = "Join us live this Sunday at 9:20 AM CST!") ∧
      (b.status.privacyStatus = none → (settingsOfLast b).privacy = "public") ∧
      (b.contentDetails = none →
        (settingsOfLast b).auto_start = true ∧ (settingsOfLast b).auto_stop = true ∧
          (settingsOfLast b).streamId = none) ∧
      (∀ cd, b.contentDetails = some cd →
        (cd.enableAutoStart = none → (settingsOfLast b).auto_start = true) ∧
        (cd.enableAutoStop = none → (settingsOfLast b).auto_stop = true) ∧
        (cd.boundStreamId = none → (settingsOfLast b).streamId = none)) := by
  obtain ⟨b, hmem, _, heq⟩ := get_last_broadcast_some items h
  refine ⟨b, hmem, heq, ?_, ?_, ?_, ?_, ?_⟩
  · intro ht
    simp [settingsOfLast, ht]
  · intro hd
    simp [settingsOfLast, hd]
  · intro hp
    simp [settingsOfLast, hp]
  · intro hcd
    simp [settingsOfLast, hcd, emptyContentDetails]
  · intro cd hcd
    refine ⟨?_, ?_, ?_⟩ <;> intro hf <;> simp [settingsOfLast, hcd, hf]

/-- Witness for C10 on a concrete response whose selected broadcast misses
every optional field. -/
theorem claim_C10_field_defaults_witness :
    ([sampleBare] : List Broadcast) ≠ [] ∧
    ∃ b, b ∈ [sampleBare] ∧ get_last_broadcast (some [sampleBare]) = settingsOfLast b ∧
      (b.snippet.title = none → (settingsOfLast b).title = "Bethel Livestream") ∧
      (b.snippet.description = none →
        (settingsOfLast b).description = "Join us live this Sunday at 9:20 AM CST!") ∧
      (b.status.privacyStatus = none → (settingsOfLast b).privacy = "public") ∧
      (b.contentDetails = none →
        (settingsOfLast b).auto_start = true ∧ (settingsOfLast b).auto_stop = true ∧
          (settingsOfLast b).streamId = none) ∧
      (∀ cd, b.contentDetails = some cd →
        (cd.enableAutoStart = none → (settingsOfLast b).auto_start = true) ∧
        (cd.enableAutoStop = none → (settingsOfLast b).auto_stop = true) ∧
        (cd.boundStreamId = none → (settingsOfLast b).streamId = none)) :=
  ⟨by simp, claim_C10_field_defaults [sampleBare] (by simp)⟩

/-- The bind and thumbnail steps keep the update and insert call counts and
the call list membership, exit with code 0, and keep the known video id. -/
theorem finishRun_shape (env : Env) (s : Settings) (calls : List ApiCall)
    (vid : String) :
    (finishRun env s calls vid).calls.countP isUpdateCall
        = calls.countP isUpdateCall ∧
    (finishRun env s calls vid).calls.countP isInsertCall
        = calls.countP isInsertCall ∧
    (∀ c ∈ calls, c ∈ (finishRun env s calls vid).calls) ∧
    (finishRun env s calls vid).exitCode = 0 ∧
    (finishRun env s calls vid).videoId = some vid := by
  simp only [finishRun]
  rcases s.streamId with _ | sid
  · simp
  · by_cases hsid : sid = ""
    · simp [hsid]
    · simp [hsid, List.countP_append, isUpdateCall, isInsertCall]
      exact fun c hc => Or.inl hc

/-- The exit code of a run is 1 exactly when no upcoming broadcast was found
and the insert failed, and 0 otherwise. -/
theorem mainRun_exitCode_eq (env : Env) (tz : TZInfo) (now : LocalDateTime)
    (f : LocalDateTime → String) (g : Int → String) :
    (mainRun env tz now f g).exitCode =
      if get_upcoming_broadcast env.upcomingResp = none ∧ env.insertOk = false
      then 1 else 0 := by
  rcases hup : get_upcoming_broadcast env.upcomingResp with _ | b
  · by_cases hio : env.insertOk
    · have hm : mainRun env tz now f g
          = finishRun env (get_last_broadcast env.lastResp)
              [ApiCall.insert (mainRequestBody env tz now f g)] env.insertedId := by
        simp only [mainRun, hup, if_pos hio]
      rw [hm, (finishRun_shape env (get_last_broadcast env.lastResp)
        [ApiCall.insert (mainRequestBody env tz now f g)] env.insertedId).2.2.2.1]
      simp [hio]
    · have hm : mainRun env tz now f g
          = { calls := [ApiCall.insert (mainRequestBody env tz now f g)]
              exitCode := 1, videoId := none, thumb := none } := by
        simp only [mainRun, hup, if_neg hio]
      rw [hm]
      simp [hio]
  · have hm : mainRun env tz now f g
        = finishRun env (get_last_broadcast env.lastResp)
            [ApiCall.update b.id (mainRequestBody env tz now f g)] b.id := by
      simp only [mainRun, hup]
    rw [hm, (finishRun_shape env (get_last_broadcast env.lastResp)
      [ApiCall.update b.id (mainRequestBody env tz now f g)] b.id).2.2.2.1]
    simp

/-- C2: when get_upcoming_broadcast returns a broadcast, the reconciler
issues exactly one update preserving that broadcast identifier and performs
no insert; when it returns none, the reconciler performs exactly one insert
of a broadcast with the same field set and no update. -/
theorem claim_C2_reconcile (env : Env) (tz : TZInfo) (now : LocalDateTime)
    (f : LocalDateTime → String) (g : Int → String) :
    (∀ b, get_upcoming_broadcast env.upcomingResp = some b →
      (mainRun env tz now f g).calls.countP isUpdateCall = 1 ∧
      (mainRun env tz now f g).calls.countP isInsertCall = 0 ∧
      ApiCall.update b.id (mainRequestBody env tz now f g)
        ∈ (mainRun env tz now f g).calls) ∧
    (get_upcoming_broadcast env.upcomingResp = none →
      (mainRun env tz now f g).calls.countP isInsertCall = 1 ∧
      (mainRun env tz now f g).calls.countP isUpdateCall = 0 ∧
      ApiCall.insert (mainRequestBody env tz now f g)
        ∈ (mainRun env tz now f g).calls) := by
  constructor
  · intro b hb
    have hm : mainRun env tz now f g
        = finishRun env (get_last_broadcast env.lastResp)
            [ApiCall.update b.id (mainRequestBody env tz now f g)] b.id := by
      simp only [mainRun, hb]
    obtain ⟨h1, h2, h3, _, _⟩ := finishRun_shape env (get_last_broadcast env.lastResp)
      [ApiCall.update b.id (mainRequestBody env tz now f g)] b.id
    rw [hm, h1, h2]
    refine ⟨by simp [isUpdateCall], by simp [isInsertCall], ?_⟩
    exact h3 _ (List.mem_cons_self _ _)
  · intro hn
    by_cases hio : env.insertOk
    · have hm : mainRun env tz now f g
          = finishRun env (get_last_broadcast env.lastResp)
              [ApiCall.insert (mainRequestBody env tz now f g)] env.insertedId := by
        simp only [mainRun, hn, if_pos hio]
      obtain ⟨h1, h2, h3, _, _⟩ := finishRun_shape env (get_last_broadcast env.lastResp)
        [ApiCall.insert (mainRequestBody env tz now f g)] env.insertedId
      rw [hm, h1, h2]
      refine ⟨by simp [isInsertCall], by simp [isUpdateCall], ?_⟩
      exact h3 _ (List.mem_cons_self _ _)
    · have hm : mainRun env tz now f g
          = { calls := [ApiCall.insert (mainRequestBody env tz now f g)]
              exitCode := 1, videoId := none, thumb := none } := by
        simp only [mainRun, hn, if_neg hio]
      rw [hm]
      refine ⟨by simp [isInsertCall], by simp [isUpdateCall], ?_⟩
      exact List.mem_cons_self _ _

/-- Witness for C2 on a concrete environment with an upcoming broadcast. -/
theorem claim_C2_reconcile_witness :
    get_upcoming_broadcast sampleEnvUpd.upcomingResp = some sampleUpcoming ∧
    (mainRun sampleEnvUpd sampleTZ sampleNow sampleFmt sampleIso).calls.countP
      isUpdateCall = 1 := by
  have hup : get_upcoming_broadcast sampleEnvUpd.upcomingResp = some sampleUpcoming := by
    show get_upcoming_broadcast (some [sampleUpcoming]) = some sampleUpcoming
    simp [get_upcoming_broadcast, isUpcomingB, sampleUpcoming]
  have h := (claim_C2_reconcile sampleEnvUpd sampleTZ sampleNow sampleFmt sampleIso).1
    sampleUpcoming hup
  exact ⟨hup, h.1⟩

/-- C4: a failed insert terminates the run with exit code 1 before the bind
and thumbnail steps; an update path never terminates abnormally and keeps
the already known broadcast identifier even when the update fails; lookup,
bind and thumbnail failures leave the exit code 0. -/
theorem claim_C4_severity (env : Env) (tz : TZInfo) (now : LocalDateTime)
    (f : LocalDateTime → String) (g : Int → String) :
    ((mainRun env tz now f g).exitCode =
      if get_upcoming_broadcast env.upcomingResp = none ∧ env.insertOk = false
      then 1 else 0) ∧
    (∀ b, get_upcoming_broadcast env.upcomingResp = some b →
      (mainRun env tz now f g).exitCode = 0 ∧
      (mainRun env tz now f g).videoId = some b.id) ∧
    (get_upcoming_broadcast env.upcomingResp = none → env.insertOk = false →
      (mainRun env tz now f g).videoId = none ∧
      (mainRun env tz now f g).calls.countP isBindCall = 0 ∧
      (mainRun env tz now f g).thumb = none) := by
  refine ⟨mainRun_exitCode_eq env tz now f g, ?_, ?_⟩
  · intro b hb
    have hm : mainRun env tz now f g
        = finishRun env (get_last_broadcast env.lastResp)
            [ApiCall.update b.id (mainRequestBody env tz now f g)] b.id := by
      simp only [mainRun, hb]
    obtain ⟨_, _, _, h4, h5⟩ := finishRun_shape env (get_last_broadcast env.lastResp)
      [ApiCall.update b.id (mainRequestBody env tz now f g)] b.id
    rw [hm]
    exact ⟨h4, h5⟩
  · intro hn hio
    have hm : mainRun env tz now f g
        = { calls := [ApiCall.insert (mainRequestBody env tz now f g)]
            exitCode := 1, videoId := none, thumb := none } := by
      simp only [mainRun, hn, hio]
      simp
    rw [hm]
    exact ⟨rfl, by simp [isBindCall], rfl⟩

/-- Witness for C4 on a concrete environment whose insert fails. -/
theorem claim_C4_severity_witness :
    get_upcoming_broadcast sampleEnvIns.upcomingResp = none ∧
    sampleEnvIns.insertOk = false ∧
    (mainRun sampleEnvIns sampleTZ sampleNow sampleFmt sampleIso).exitCode = 1 ∧
    (mainRun sampleEnvIns sampleTZ sampleNow sampleFmt sampleIso).thumb = none := by
  have h := claim_C4_severity sampleEnvIns sampleTZ sampleNow sampleFmt sampleIso
  have hup : get_upcoming_broadcast sampleEnvIns.upcomingResp = none := rfl
  have hio : sampleEnvIns.insertOk = false := rfl
  refine ⟨hup, hio, ?_, (h.2.2 hup hio).2.2⟩
  rw [h.1]
  simp [hup, hio]

/-- C9: set_thumbnail with an absent url is a silent no-op; with a url, a
fetch failure occurs before the temporary file exists, while a successful
fetch creates the temporary file and attempts the upload; on every exit path
no temporary file is left behind, and the thumbnail or fetch outcome never
changes the exit code of the run. -/
theorem claim_C9_thumbnail (url : Option String) (fetchOk uploadOk x y : Bool)
    (env : Env) (tz : TZInfo) (now : LocalDateTime)
    (f : LocalDateTime → String) (g : Int → String) :
    (set_thumbnail none fetchOk uploadOk =
      { tempCreated := false, tempResidual := false, uploaded := false }) ∧
    ((set_thumbnail url fetchOk uploadOk).tempResidual = false) ∧
    (pyTruthy url = false → set_thumbnail url fetchOk uploadOk =
      { tempCreated := false, tempResidual := false, uploaded := false }) ∧
    (pyTruthy url = true → fetchOk = false →
      (set_thumbnail url fetchOk uploadOk).tempCreated = false ∧
      (set_thumbnail url fetchOk uploadOk).uploaded = false) ∧
    (pyTruthy url = true → fetchOk = true →
      (set_thumbnail url fetchOk uploadOk).tempCreated = true ∧
      (set_thumbnail url fetchOk uploadOk).uploaded = uploadOk) ∧
    ((mainRun { env with fetchOk := x, uploadOk := y } tz now f g).exitCode
      = (mainRun env tz now f g).exitCode) := by
  refine ⟨rfl, ?_, ?_, ?_, ?_, ?_⟩
  · by_cases hu : pyTruthy url = false
    · simp [set_thumbnail, hu]
    · by_cases hf2 : fetchOk = false <;> simp [set_thumbnail, hu, hf2]
  · intro hu
    simp [set_thumbnail, hu]
  · intro hu hf2
    simp [set_thumbnail, hu, hf2]
  · intro hu hf2
    simp [set_thumbnail, hu, hf2]
  · rw [mainRun_exitCode_eq, mainRun_exitCode_eq]

/-- The lifecycle state is untouched by the store update effect. -/
theorem isUpcomingB_updatedBroadcast (x : Broadcast) (bdy : RequestBody) :
    isUpcomingB (updatedBroadcast x bdy) = isUpcomingB x := rfl

/-- Updating broadcasts in place never changes the number of upcoming
broadcasts of a store. -/
theorem countUpcoming_map_update (l : List Broadcast) (bid : String)
    (bdy : RequestBody) :
    countUpcoming (l.map (fun x => if x.id = bid then updatedBroadcast x bdy else x))
      = countUpcoming l := by
  unfold countUpcoming
  rw [← List.countP_eq_length_filter, ← List.countP_eq_length_filter,
    List.countP_map]
  apply List.countP_congr
  intro a _
  by_cases hid : a.id = bid <;>
    simp [Function.comp, hid, isUpcomingB_updatedBroadcast]

/-- The pipeline takes the insert path when no upcoming broadcast is
listed. -/
theorem runPipeline_insert_path (tz : TZInfo) (now : LocalDateTime)
    (f : LocalDateTime → String) (g : Int → String) (nid pub : String)
    (store : List Broadcast)
    (hb : get_upcoming_broadcast (some (listBroadcasts store)) = none) :
    runPipeline tz now f g nid pub store
      = insertedBroadcast nid pub (pipelineBody tz now f g store) :: store := by
  simp only [runPipeline, hb]

/-- The pipeline takes the update path when an upcoming broadcast is
listed. -/
theorem runPipeline_update_path (tz : TZInfo) (now : LocalDateTime)
    (f : LocalDateTime → String) (g : Int → String) (nid pub : String)
    (store : List Broadcast) (b : Broadcast)
    (hb : get_upcoming_broadcast (some (listBroadcasts store)) = some b) :
    runPipeline tz now f g nid pub store
      = store.map (fun x =>
          if x.id = b.id
          then updatedBroadcast x (pipelineBody tz now f g store)
          else x) := by
  simp only [runPipeline, hb]

/-- C3: against a stable backing store with no upcoming broadcast, a first
run takes the insert path and leaves exactly one upcoming broadcast, and a
second run takes the update path, creates no additional broadcast, and still
leaves exactly one upcoming broadcast. -/
theorem claim_C3_run_twice (tz tz2 : TZInfo) (now now2 : LocalDateTime)
    (f f2 : LocalDateTime → String) (g g2 : Int → String)
    (newId publishedAt newId2 publishedAt2 : String)
    (store : List Broadcast) (h : countUpcoming store = 0) :
    countUpcoming (runPipeline tz now f g newId publishedAt store) = 1 ∧
    (runPipeline tz now f g newId publishedAt store).length = store.length + 1 ∧
    countUpcoming (runPipeline tz2 now2 f2 g2 newId2 publishedAt2
      (runPipeline tz now f g newId publishedAt store)) = 1 ∧
    (runPipeline tz2 now2 f2 g2 newId2 publishedAt2
        (runPipeline tz now f g newId publishedAt store)).length
      = (runPipeline tz now f g newId publishedAt store).length := by
  have hfilter : store.filter isUpcomingB = [] :=
    List.length_eq_zero.mp h
  have hnotup : ∀ a ∈ store, ¬ isUpcomingB a = true :=
    List.filter_eq_nil_iff.mp hfilter
  have hfilterTake : ∀ n : Nat, (store.take n).filter isUpcomingB = [] := by
    intro n
    rw [List.filter_eq_nil_iff]
    intro a ha
    exact hnotup a (List.take_subset n store ha)
  have hup1 : get_upcoming_broadcast (some (listBroadcasts store)) = none := by
    simp only [get_upcoming_broadcast, listBroadcasts]
    rw [hfilterTake 10, List.mergeSort_nil]
  have hrun1 : runPipeline tz now f g newId publishedAt store
      = insertedBroadcast newId publishedAt (pipelineBody tz now f g store)
          :: store :=
    runPipeline_insert_path tz now f g newId publishedAt store hup1
  have hupc : isUpcomingB
      (insertedBroadcast newId publishedAt (pipelineBody tz now f g store)) = true := rfl
  have hcount1 : countUpcoming (runPipeline tz now f g newId publishedAt store) = 1 := by
    rw [hrun1]
    unfold countUpcoming
    rw [List.filter_cons_of_pos hupc, hfilter]
    rfl
  have hlen1 : (runPipeline tz now f g newId publishedAt store).length
      = store.length + 1 := by
    rw [hrun1]
    rfl
  have hlist2 : listBroadcasts (runPipeline tz now f g newId publishedAt store)
      = insertedBroadcast newId publishedAt (pipelineBody tz now f g store)
          :: store.take 9 := by
    rw [hrun1]
    rfl
  have hup2 : get_upcoming_broadcast
      (some (listBroadcasts (runPipeline tz now f g newId publishedAt store)))
      = some (insertedBroadcast newId publishedAt (pipelineBody tz now f g store)) := by
    simp only [get_upcoming_broadcast, hlist2]
    rw [List.filter_cons_of_pos hupc, hfilterTake 9, List.mergeSort_singleton]
  have hrun2 : runPipeline tz2 now2 f2 g2 newId2 publishedAt2
        (runPipeline tz now f g newId publishedAt store)
      = (runPipeline tz now f g newId publishedAt store).map (fun x =>
          if x.id = (insertedBroadcast newId publishedAt
              (pipelineBody tz now f g store)).id
          then updatedBroadcast x (pipelineBody tz2 now2 f2 g2
            (runPipeline tz now f g newId publishedAt store))
          else x) :=
    runPipeline_update_path tz2 now2 f2 g2 newId2 publishedAt2
      (runPipeline tz now f g newId publishedAt store)
      (insertedBroadcast newId publishedAt (pipelineBody tz now f g store)) hup2
  refine ⟨hcount1, hlen1, ?_, ?_⟩
  · rw [hrun2, countUpcoming_map_update, hcount1]
  · rw [hrun2, List.length_map]

/-- Witness for C3 on the concrete empty store. -/
theorem claim_C3_run_twice_witness :
    countUpcoming [] = 0 ∧
    countUpcoming (runPipeline sampleTZ sampleNow sampleFmt sampleIso
      "vid-a" "2024-01-08" []) = 1 ∧
    countUpcoming (runPipeline sampleTZ sampleNow sampleFmt sampleIso
      "vid-b" "2024-01-15"
      (runPipeline sampleTZ sampleNow sampleFmt sampleIso "vid-a" "2024-01-08" [])) = 1 := by
  have h := claim_C3_run_twice sampleTZ sampleTZ sampleNow sampleNow
    sampleFmt sampleFmt sampleIso sampleIso
    "vid-a" "2024-01-08" "vid-b" "2024-01-15" [] (by decide)
  exact ⟨by decide, h.1, h.2.2.1⟩

/-- Witness for C9 on a concrete url and a failing fetch. -/
theorem claim_C9_thumbnail_witness :
    pyTruthy (some "img-high") = true ∧
    (set_thumbnail (some "img-high") false true).tempCreated = false ∧
    (set_thumbnail (some "img-high") false true).tempResidual = false := by
  have h := claim_C9_thumbnail (some "img-high") false true true true
    sampleEnvIns sampleTZ sampleNow sampleFmt sampleIso
  refine ⟨by decide, (h.2.2.2.1 (by decide) rfl).1, h.2.1⟩

end YTSched
